import Mathlib

/-
Verification of the SafeHaven geofence monitor.

The repository implements circular-geofence containment detection in three
places: a client-side React hook (useDangerZoneDetection), an Express
backend route (POST /api/locations in backend/server.js), and a Solidity
contract (TouristSafety.sol).  This development embeds:

  * the Haversine distance function shared verbatim by the client hook and
    the backend (calculateDistance), over the reals, with atan2 kept
    abstract since both the code and the specification apply the same
    two-argument arctangent;
  * the client hook's per-zone detection step and its session state
    (notified-zones set, admin-notified set, persisted alert list);
  * the consolidated GeofenceMonitor `evaluate` operation of the design
    specification (modelled from the spec, since no single function in the
    repository implements the consolidated contract);
  * the emergency-alert bookkeeping of the TouristSafety contract
    (_createEmergencyAlert, dismissAlert, getActiveAlerts).

Positions and radii are rationals in the state-machine models so that every
definition is executable and every predicate decidable; the trigonometric
distance itself is treated as a parameter of the state machine, exactly as
the hook calls calculateDistance as a black box.
-/

namespace SafeHaven

/-! ## Distance: the Haversine formula (client hook and backend) -/

/-- Distance between two points in meters, as implemented identically in
`useDangerZoneDetection.tsx` and in `backend/server.js` (`calculateDistance`).
The two-argument arctangent is abstracted as a parameter `atan2`; everything
else is the literal arithmetic of the source. -/
noncomputable def calculateDistance (atan2 : ℝ → ℝ → ℝ)
    (lat1 lon1 lat2 lon2 : ℝ) : ℝ :=
  let R : ℝ := 6371000
  let dLat := (lat2 - lat1) * Real.pi / 180
  let dLon := (lon2 - lon1) * Real.pi / 180
  let a :=
    Real.sin (dLat / 2) * Real.sin (dLat / 2) +
    Real.cos (lat1 * Real.pi / 180) * Real.cos (lat2 * Real.pi / 180) *
    Real.sin (dLon / 2) * Real.sin (dLon / 2)
  let c := 2 * atan2 (Real.sqrt a) (Real.sqrt (1 - a))
  R * c

/-- The distance formula exactly as the specification words it: mean Earth
radius 6 371 000 m, latitudes and longitudes converted to radians,
a = sin²(Δφ/2) + cos(φ1)·cos(φ2)·sin²(Δλ/2), d = 2R·atan2(√a, √(1−a)). -/
noncomputable def haversineSpecDistance (atan2 : ℝ → ℝ → ℝ)
    (lat1 lon1 lat2 lon2 : ℝ) : ℝ :=
  let R : ℝ := 6371000
  let phi1 := lat1 * Real.pi / 180
  let phi2 := lat2 * Real.pi / 180
  let dphi := phi2 - phi1
  let dlam := lon2 * Real.pi / 180 - lon1 * Real.pi / 180
  let a := Real.sin (dphi / 2) ^ 2 +
    Real.cos phi1 * Real.cos phi2 * Real.sin (dlam / 2) ^ 2
  2 * R * atan2 (Real.sqrt a) (Real.sqrt (1 - a))

/-! ## Client hook: useDangerZoneDetection

The hook keeps two in-memory sets (`notifiedZonesRef`, `adminNotifiedRef`)
keyed by the string `userId ++ "-" ++ zone.id`, plus the persisted
`dangerZoneAlerts` list.  On each location sample it iterates over the
danger zones; entering a zone not in the notified set fires an entry toast,
adds the key, and (if the admin set lacks the key) appends one admin alert
and adds the key to the admin set; leaving a zone whose key is in the
notified set removes the key and fires an exit toast; otherwise nothing
changes. -/

/-- Risk level of a danger zone (`low | medium | high`). -/
inductive ZoneLevel
  | low
  | medium
  | high
deriving DecidableEq, Repr

/-- A danger zone as stored by the client (`DangerZone` in the hook). -/
structure DangerZone where
  id : String
  name : String
  lat : ℚ
  lng : ℚ
  radius : ℚ
  level : ZoneLevel
deriving DecidableEq, Repr

/-- A user location sample: latitude and longitude. -/
abbrev UserLocation := ℚ × ℚ

/-- An abstract distance function standing for `calculateDistance`; the
state machine only consumes its output, compared against a zone radius. -/
abbrev Dist := UserLocation → UserLocation → ℚ

/-- Containment test of the hook (`const isInZone = distance <= zone.radius`);
also the form used by the backend route and, on squared values, by the
contract: closed-disk comparison with `≤`. -/
def isInZone (distance radius : ℚ) : Bool := distance ≤ radius

/-- Dedup key for a (subject, zone) pair (`const zoneKey = userId-zone.id`). -/
def zoneKey (userId : String) (zone : DangerZone) : String :=
  userId ++ "-" ++ zone.id

/-- One admin alert record as pushed to the persisted `dangerZoneAlerts`
list; `key` is the zone key embedded in the record's `id` field. -/
structure AdminAlert where
  key : String
  touristId : String
  username : String
  zoneName : String
  zoneLevel : ZoneLevel
  location : UserLocation
deriving DecidableEq, Repr

/-- The session state owned by the hook: the user-notification set, the
admin-notification set, and the persisted admin alert list. -/
structure DetectionState where
  notifiedZones : Finset String
  adminNotified : Finset String
  dangerAlerts : List AdminAlert
deriving DecidableEq

/-- A user-facing transition toast: entry or exit of a zone. -/
inductive Transition
  | entered (zone : DangerZone)
  | left (zone : DangerZone)
deriving DecidableEq, Repr

/-- The body of the hook's `forEach` for a single zone: containment check,
dedup against the notified set, admin alert creation, exit handling. -/
def checkZone (dist : Dist) (userId username : String)
    (userLocation : UserLocation) (st : DetectionState) (zone : DangerZone) :
    DetectionState × List Transition :=
  let distance := dist userLocation (zone.lat, zone.lng)
  let inZone := isInZone distance zone.radius
  let key := zoneKey userId zone
  if inZone ∧ key ∉ st.notifiedZones then
    let st1 := { st with notifiedZones := insert key st.notifiedZones }
    let st2 :=
      if key ∉ st1.adminNotified then
        { st1 with
          adminNotified := insert key st1.adminNotified,
          dangerAlerts := st1.dangerAlerts ++
            [⟨key, userId, username, zone.name, zone.level, userLocation⟩] }
      else st1
    (st2, [Transition.entered zone])
  else if ¬ inZone ∧ key ∈ st.notifiedZones then
    ({ st with notifiedZones := st.notifiedZones.erase key },
      [Transition.left zone])
  else
    (st, [])

/-- One run of the hook's effect: fold `checkZone` over the zone list in
order, collecting the emitted transitions. -/
def evaluate (dist : Dist) (userId username : String)
    (userLocation : UserLocation) :
    List DangerZone → DetectionState → DetectionState × List Transition
  | [], st => (st, [])
  | z :: zs, st =>
    let r := checkZone dist userId username userLocation st z
    let rest := evaluate dist userId username userLocation zs r.1
    (rest.1, r.2 ++ rest.2)

/-- The hook's `clearNotifications`: clears both dedup sets (the persisted
alert list is untouched). -/
def clearNotifications (st : DetectionState) : DetectionState :=
  { st with notifiedZones := ∅, adminNotified := ∅ }

/-- The empty session state: both refs start as empty sets; `alerts` is the
persisted list found in storage at session start. -/
def initialState (alerts : List AdminAlert) : DetectionState :=
  ⟨∅, ∅, alerts⟩

/-- One call of the hook during a session: the sample's location together
with the identity and the zone snapshot it is evaluated against. -/
structure HookCall where
  dist : Dist
  userId : String
  username : String
  loc : UserLocation
  zones : List DangerZone

/-- Run a whole session: fold the state through a list of hook calls. -/
def runCalls (calls : List HookCall) (st : DetectionState) : DetectionState :=
  calls.foldl
    (fun s c => (evaluate c.dist c.userId c.username c.loc c.zones s).1) st

/-- Number of persisted admin alerts carrying a given zone key. -/
def countAlerts (key : String) (st : DetectionState) : ℕ :=
  (st.dangerAlerts.filter (fun a => a.key = key)).length

/-- Session invariant of the hook: relative to the alert list `base` found
in storage at session start, at most one alert per key has been appended,
and only for keys recorded in the admin-notified set. -/
def SessionInv (base : List AdminAlert) (st : DetectionState) : Prop :=
  ∀ k : String, countAlerts k st ≤
    (base.filter (fun a => a.key = k)).length +
      (if k ∈ st.adminNotified then 1 else 0)

/-! ## Consolidated GeofenceMonitor (modelled from the spec)

No single function in the repository implements the consolidated
`evaluate(subjectId, position, timestamp, zones, priorStatus)` contract:
the client hook has no priorStatus or validation, the backend route has no
dedup state, validation or status gate, and the contract returns no
transitions.  The definitions below are modelled from the spec (§4.1). -/

/-- Safety status category of a subject (`safe`, `alert`, `danger`). -/
inductive SafetyStatus
  | safe
  | alert
  | danger
deriving DecidableEq, Repr

/-- Error raised on malformed input. -/
inductive GeoError
  | validationError
deriving DecidableEq, Repr

/-- The MembershipState table: the set of (subjectId, zoneId) pairs whose
stored boolean is `true`; absence encodes the default `false`. -/
abbrev MembershipTable := Finset (String × String)

/-- Modelled from the spec: coordinate validation — latitude in [-90, 90]
and longitude in [-180, 180]; no route or hook in the repository performs
this range check. -/
def validPosition (pos : UserLocation) : Prop :=
  (-90 ≤ pos.1 ∧ pos.1 ≤ 90) ∧ (-180 ≤ pos.2 ∧ pos.2 ≤ 180)

instance (pos : UserLocation) : Decidable (validPosition pos) :=
  inferInstanceAs (Decidable (((-90 ≤ pos.1 ∧ pos.1 ≤ 90) ∧
    (-180 ≤ pos.2 ∧ pos.2 ≤ 180))))

/-- The alert synthesized by the escalation rule, carrying the triggering
zone and the call timestamp for the event payload. -/
structure SpecAlert where
  zone : DangerZone
  timestamp : ℕ
deriving DecidableEq, Repr

/-- Modelled from the spec: step 1 of `evaluate` — per zone, compute the
distance, compare against the radius (closed disk), compare with the stored
prior state (default Outside), record an `Entered` or `Left` transition on
change and update the table, and do nothing when unchanged. -/
def specStep (dist : Dist) (subjectId : String) (pos : UserLocation) :
    List DangerZone → MembershipTable → MembershipTable × List Transition
  | [], tbl => (tbl, [])
  | z :: zs, tbl =>
    let d := dist pos (z.lat, z.lng)
    let isInside := isInZone d z.radius
    let prior : Bool := (subjectId, z.id) ∈ tbl
    if isInside ≠ prior then
      let tbl1 := if isInside then insert (subjectId, z.id) tbl
                  else tbl.erase (subjectId, z.id)
      let t := if isInside then Transition.entered z else Transition.left z
      let rest := specStep dist subjectId pos zs tbl1
      (rest.1, t :: rest.2)
    else
      specStep dist subjectId pos zs tbl

/-- First zone entered, in transition (hence zone-input) order. -/
def firstEntered : List Transition → Option DangerZone
  | [] => none
  | Transition.entered z :: _ => some z
  | Transition.left _ :: ts => firstEntered ts

/-- Modelled from the spec: the consolidated `evaluate` operation — validate
the coordinates before touching the membership table, fold the per-zone
step, then synthesize at most one alert: only when some `Entered` transition
occurred and `priorStatus` is the baseline safe category, referencing the
first entered zone in input order. -/
def specEvaluate (dist : Dist) (subjectId : String) (pos : UserLocation)
    (timestamp : ℕ) (zones : List DangerZone) (priorStatus : SafetyStatus)
    (tbl : MembershipTable) :
    Except GeoError (MembershipTable × List Transition × Option SpecAlert) :=
  if validPosition pos then
    let r := specStep dist subjectId pos zones tbl
    let alert :=
      if priorStatus = SafetyStatus.safe then
        (firstEntered r.2).map (fun z => SpecAlert.mk z timestamp)
      else none
    Except.ok (r.1, r.2, alert)
  else
    Except.error GeoError.validationError

/-! ## TouristSafety contract: emergency-alert bookkeeping

Embeds the alert storage of `TouristSafety.sol`: the `alerts` array, the
`alertCount` counter of non-dismissed alerts, and the `alertCounter` id
counter, with `_createEmergencyAlert`, `dismissAlert` (admin-gated
`require`s become an `Option`) and `getActiveAlerts` (a fixed-size array of
`alertCount` slots filled with the non-dismissed alerts in order; unfilled
slots keep the zero value). -/

/-- An emergency alert record (fields relevant to the bookkeeping). -/
structure EmergencyAlert where
  alertId : String
  zoneName : String
  isDismissed : Bool
deriving DecidableEq, Repr

/-- The contract's alert storage. -/
structure AlertsState where
  alerts : List EmergencyAlert
  alertCount : ℕ
  alertCounter : ℕ
deriving DecidableEq, Repr

/-- The zero value of an `EmergencyAlert` storage slot. -/
def zeroAlert : EmergencyAlert := ⟨"", "", false⟩

/-- The `_createEmergencyAlert` function: increment the id counter, push a
non-dismissed alert, increment `alertCount`. -/
def createEmergencyAlert (st : AlertsState) (zoneName : String) :
    AlertsState :=
  let counter := st.alertCounter + 1
  { alerts := st.alerts ++
      [⟨"ALERT-" ++ toString counter, zoneName, false⟩],
    alertCount := st.alertCount + 1,
    alertCounter := counter }

/-- The `dismissAlert` function: `require` a valid index on a not-yet
dismissed alert (else revert, modelled as `none`), mark it dismissed and
decrement `alertCount`. -/
def dismissAlert (st : AlertsState) (idx : ℕ) : Option AlertsState :=
  if h : idx < st.alerts.length then
    let a := st.alerts.get ⟨idx, h⟩
    if a.isDismissed then none
    else some { st with
      alerts := st.alerts.set idx { a with isDismissed := true },
      alertCount := st.alertCount - 1 }
  else none

/-- The non-dismissed alerts, in storage order. -/
def activeAlerts (st : AlertsState) : List EmergencyAlert :=
  st.alerts.filter (fun a => !a.isDismissed)

/-- The `getActiveAlerts` view: allocate `alertCount` zero slots and fill
the non-dismissed alerts in order; writing past the end of the allocated
array reverts (modelled as `none`). -/
def getActiveAlerts (st : AlertsState) : Option (List EmergencyAlert) :=
  let act := activeAlerts st
  if act.length ≤ st.alertCount then
    some (act ++ List.replicate (st.alertCount - act.length) zeroAlert)
  else none

/-- States of the alert subsystem reachable from deployment through
`_createEmergencyAlert` and successful `dismissAlert` calls. -/
inductive AlertsReachable : AlertsState → Prop
  | init : AlertsReachable ⟨[], 0, 0⟩
  | create (st : AlertsState) (zoneName : String) :
      AlertsReachable st → AlertsReachable (createEmergencyAlert st zoneName)
  | dismiss (st : AlertsState) (idx : ℕ) (st' : AlertsState) :
      AlertsReachable st → dismissAlert st idx = some st' →
      AlertsReachable st'

end SafeHaven

/-- C2: for every pair of coordinates, the distance used by the containment
check equals the great-circle Haversine distance of the specification with
mean Earth radius 6 371 000 m, for any interpretation of the two-argument
arctangent (the code and the spec invoke the same atan2). -/
theorem SafeHaven.calculateDistance_eq_spec (atan2 : ℝ → ℝ → ℝ)
    (lat1 lon1 lat2 lon2 : ℝ) :
    calculateDistance atan2 lat1 lon1 lat2 lon2 =
      haversineSpecDistance atan2 lat1 lon1 lat2 lon2 := by
  dsimp only [calculateDistance, haversineSpecDistance]
  have hlat : (lat2 - lat1) * Real.pi / 180 / 2 =
      (lat2 * Real.pi / 180 - lat1 * Real.pi / 180) / 2 := by ring
  have hlon : (lon2 - lon1) * Real.pi / 180 / 2 =
      (lon2 * Real.pi / 180 - lon1 * Real.pi / 180) / 2 := by ring
  rw [hlat, hlon]
  ring_nf

/-! ## Lemmas about the client hook state machine -/

namespace SafeHaven

/-- Unfolds the Boolean containment test. -/
theorem isInZone_true_iff (d r : ℚ) : isInZone d r = true ↔ d ≤ r := by
  simp [isInZone]

/-- Left-cancellation for string append. -/
theorem string_append_cancel_left {s t u : String} (h : s ++ t = s ++ u) :
    t = u := by
  have hd : (s ++ t).data = (s ++ u).data := congrArg String.data h
  simp only [String.data_append] at hd
  exact String.ext (List.append_cancel_left hd)

/-- For a fixed user, distinct zone ids give distinct dedup keys. -/
theorem zoneKey_inj (userId : String) {z1 z2 : DangerZone}
    (h : z1.id ≠ z2.id) : zoneKey userId z1 ≠ zoneKey userId z2 := by
  intro he
  apply h
  have h2 : (userId ++ "-") ++ z1.id = (userId ++ "-") ++ z2.id := by
    simpa [zoneKey, String.append_assoc] using he
  exact string_append_cancel_left h2

/-- After one per-zone step, the key of that zone is in the notified set
exactly when the sample is within the radius. -/
theorem checkZone_notified_self (dist : Dist) (uid uname : String)
    (loc : UserLocation) (st : DetectionState) (z : DangerZone) :
    zoneKey uid z ∈
        (checkZone dist uid uname loc st z).1.notifiedZones ↔
      dist loc (z.lat, z.lng) ≤ z.radius := by
  simp only [checkZone]
  split_ifs with h1 h2 h3
  · exact iff_of_true (Finset.mem_insert_self _ _)
      ((isInZone_true_iff _ _).1 h1.1)
  · exact iff_of_true (Finset.mem_insert_self _ _)
      ((isInZone_true_iff _ _).1 h1.1)
  · exact iff_of_false (Finset.not_mem_erase _ _)
      (fun hd => h3.1 ((isInZone_true_iff _ _).2 hd))
  · constructor
    · intro hmem
      by_contra hd
      exact h3 ⟨fun hA => hd ((isInZone_true_iff _ _).1 hA), hmem⟩
    · intro hd
      by_contra hmem
      exact h1 ⟨(isInZone_true_iff _ _).2 hd, hmem⟩

/-- A per-zone step only touches its own key in the notified set. -/
theorem checkZone_notified_other (dist : Dist) (uid uname : String)
    (loc : UserLocation) (st : DetectionState) (z : DangerZone) (k : String)
    (hk : k ≠ zoneKey uid z) :
    (k ∈ (checkZone dist uid uname loc st z).1.notifiedZones ↔
      k ∈ st.notifiedZones) := by
  simp only [checkZone]
  split_ifs with h1 h2 <;> simp_all [Finset.mem_insert, Finset.mem_erase]

/-- A per-zone step whose containment matches the stored state changes
nothing and emits nothing. -/
theorem checkZone_noop (dist : Dist) (uid uname : String)
    (loc : UserLocation) (st : DetectionState) (z : DangerZone)
    (h : zoneKey uid z ∈ st.notifiedZones ↔
      dist loc (z.lat, z.lng) ≤ z.radius) :
    checkZone dist uid uname loc st z = (st, []) := by
  simp only [checkZone]
  split_ifs with h1 h2 h3
  · exact absurd (h.2 ((isInZone_true_iff _ _).1 h1.1)) h1.2
  · exact absurd (h.2 ((isInZone_true_iff _ _).1 h1.1)) h1.2
  · exact absurd ((isInZone_true_iff _ _).2 (h.1 h3.2)) h3.1
  · rfl

/-- Evaluating a list of zones none of whose keys equal `k` leaves the
membership of `k` in the notified set unchanged. -/
theorem evaluate_notified_preserve (dist : Dist) (uid uname : String)
    (loc : UserLocation) :
    ∀ (zs : List DangerZone) (st : DetectionState) (k : String),
      (∀ z' ∈ zs, zoneKey uid z' ≠ k) →
      (k ∈ (evaluate dist uid uname loc zs st).1.notifiedZones ↔
        k ∈ st.notifiedZones)
  | [], st, k, _ => Iff.rfl
  | z :: zs, st, k, h => by
    have hz : zoneKey uid z ≠ k := h z (List.mem_cons_self z zs)
    have hzs : ∀ z' ∈ zs, zoneKey uid z' ≠ k :=
      fun z' hz' => h z' (List.mem_cons_of_mem z hz')
    show (k ∈ (evaluate dist uid uname loc zs
        (checkZone dist uid uname loc st z).1).1.notifiedZones ↔ _)
    rw [evaluate_notified_preserve dist uid uname loc zs _ k hzs]
    exact checkZone_notified_other dist uid uname loc st z k
      (fun he => hz he.symm)

/-- After a full evaluation over zones with pairwise distinct ids, each
zone's key is stored exactly when the sample is within its radius. -/
theorem evaluate_mem (dist : Dist) (uid uname : String)
    (loc : UserLocation) :
    ∀ (zones : List DangerZone) (st : DetectionState),
      (zones.map DangerZone.id).Nodup →
      ∀ z ∈ zones,
        (zoneKey uid z ∈
            (evaluate dist uid uname loc zones st).1.notifiedZones ↔
          dist loc (z.lat, z.lng) ≤ z.radius)
  | [], _, _, z, hz => absurd hz (List.not_mem_nil z)
  | z0 :: zs, st, hnd, z, hz => by
    rw [List.map_cons, List.nodup_cons] at hnd
    rcases List.mem_cons.1 hz with rfl | hzs
    · show (zoneKey uid z ∈ (evaluate dist uid uname loc zs
        (checkZone dist uid uname loc st z).1).1.notifiedZones ↔ _)
      rw [evaluate_notified_preserve dist uid uname loc zs _ (zoneKey uid z)
        (fun z' hz' => zoneKey_inj uid
          (fun hid => hnd.1 (hid ▸ List.mem_map_of_mem DangerZone.id hz')))]
      exact checkZone_notified_self dist uid uname loc st z
    · exact evaluate_mem dist uid uname loc zs _ hnd.2 z hzs

/-- Evaluating zones whose containment all match the stored state is a
complete no-op: same state, no transitions. -/
theorem evaluate_noop (dist : Dist) (uid uname : String)
    (loc : UserLocation) :
    ∀ (zones : List DangerZone) (st : DetectionState),
      (∀ z ∈ zones, (zoneKey uid z ∈ st.notifiedZones ↔
        dist loc (z.lat, z.lng) ≤ z.radius)) →
      evaluate dist uid uname loc zones st = (st, [])
  | [], st, _ => rfl
  | z :: zs, st, h => by
    have hz := checkZone_noop dist uid uname loc st z
      (h z (List.mem_cons_self z zs))
    show (let r := checkZone dist uid uname loc st z
      let rest := evaluate dist uid uname loc zs r.1
      ((rest.1, r.2 ++ rest.2) : DetectionState × List Transition)) = (st, [])
    rw [hz]
    have hrest := evaluate_noop dist uid uname loc zs st
      (fun z' hz' => h z' (List.mem_cons_of_mem z hz'))
    simp [hrest]

end SafeHaven

namespace SafeHaven

/-- Leaving a zone whose key is stored: the step erases the key and emits
exactly one exit toast. -/
theorem checkZone_left_eq (dist : Dist) (uid uname : String)
    (loc : UserLocation) (st : DetectionState) (z : DangerZone)
    (hin : zoneKey uid z ∈ st.notifiedZones)
    (hout : ¬ dist loc (z.lat, z.lng) ≤ z.radius) :
    checkZone dist uid uname loc st z =
      ({ st with notifiedZones := st.notifiedZones.erase (zoneKey uid z) },
        [Transition.left z]) := by
  simp only [checkZone]
  rw [if_neg (fun hc => hout ((isInZone_true_iff _ _).1 hc.1)),
    if_pos ⟨fun hc => hout ((isInZone_true_iff _ _).1 hc), hin⟩]

/-- Entering a zone whose key is not stored: the step emits exactly one
entry toast and inserts the key, whatever the admin set holds. -/
theorem checkZone_entered_parts (dist : Dist) (uid uname : String)
    (loc : UserLocation) (st : DetectionState) (z : DangerZone)
    (hnot : zoneKey uid z ∉ st.notifiedZones)
    (hin : dist loc (z.lat, z.lng) ≤ z.radius) :
    (checkZone dist uid uname loc st z).2 = [Transition.entered z] ∧
    (checkZone dist uid uname loc st z).1.notifiedZones =
      insert (zoneKey uid z) st.notifiedZones := by
  simp only [checkZone]
  rw [if_pos ⟨(isInZone_true_iff _ _).2 hin, hnot⟩]
  split_ifs <;> exact ⟨rfl, rfl⟩

/-- Re-entering a zone already recorded in the admin-notified set: the entry
toast fires again and the key is re-inserted, but the admin set and the
persisted alert list are untouched. -/
theorem checkZone_reenter (dist : Dist) (uid uname : String)
    (loc : UserLocation) (st : DetectionState) (z : DangerZone)
    (hnot : zoneKey uid z ∉ st.notifiedZones)
    (hadm : zoneKey uid z ∈ st.adminNotified)
    (hin : dist loc (z.lat, z.lng) ≤ z.radius) :
    checkZone dist uid uname loc st z =
      ({ st with notifiedZones := insert (zoneKey uid z) st.notifiedZones },
        [Transition.entered z]) := by
  simp only [checkZone]
  rw [if_pos ⟨(isInZone_true_iff _ _).2 hin, hnot⟩,
    if_neg (not_not_intro hadm)]

/-- A per-zone step either leaves the alert list and the admin set alone, or
appends exactly one alert keyed by a key freshly added to the admin set. -/
theorem checkZone_alerts_cases (dist : Dist) (uid uname : String)
    (loc : UserLocation) (st : DetectionState) (z : DangerZone) :
    ((checkZone dist uid uname loc st z).1.dangerAlerts = st.dangerAlerts ∧
      (checkZone dist uid uname loc st z).1.adminNotified =
        st.adminNotified) ∨
    (zoneKey uid z ∉ st.adminNotified ∧
      (checkZone dist uid uname loc st z).1.dangerAlerts =
        st.dangerAlerts ++
          [⟨zoneKey uid z, uid, uname, z.name, z.level, loc⟩] ∧
      (checkZone dist uid uname loc st z).1.adminNotified =
        insert (zoneKey uid z) st.adminNotified) := by
  simp only [checkZone]
  split_ifs with h1 h2 h3
  · exact Or.inl ⟨rfl, rfl⟩
  · exact Or.inr ⟨h2, rfl, rfl⟩
  · exact Or.inl ⟨rfl, rfl⟩
  · exact Or.inl ⟨rfl, rfl⟩

/-- A per-zone step preserves the session invariant. -/
theorem checkZone_inv (dist : Dist) (uid uname : String)
    (loc : UserLocation) (st : DetectionState) (z : DangerZone)
    (base : List AdminAlert) (hinv : SessionInv base st) :
    SessionInv base (checkZone dist uid uname loc st z).1 := by
  intro k
  have hk := hinv k
  rcases checkZone_alerts_cases dist uid uname loc st z with
    ⟨hD, hA⟩ | ⟨hnadm, hD, hA⟩
  · simpa [countAlerts, hD, hA] using hk
  · by_cases hkey : zoneKey uid z = k
    · subst hkey
      have h0 : (if zoneKey uid z ∈ st.adminNotified then 1 else 0) = 0 :=
        if_neg hnadm
      rw [h0] at hk
      simp only [countAlerts] at hk
      simp [countAlerts, hD, hA, List.filter_append]
      omega
    · have hcount : countAlerts k (checkZone dist uid uname loc st z).1 =
          countAlerts k st := by
        simp [countAlerts, hD, List.filter_append, hkey]
      rw [hcount, hA]
      by_cases hadm : k ∈ st.adminNotified
      · rw [if_pos (Finset.mem_insert_of_mem hadm)]
        rw [if_pos hadm] at hk
        exact hk
      · have hni : k ∉ insert (zoneKey uid z) st.adminNotified := by
          intro hmem
          rcases Finset.mem_insert.1 hmem with h | h
          · exact hkey h.symm
          · exact hadm h
        rw [if_neg hni]
        rw [if_neg hadm] at hk
        exact hk

/-- A full evaluation preserves the session invariant. -/
theorem evaluate_inv (dist : Dist) (uid uname : String)
    (loc : UserLocation) (base : List AdminAlert) :
    ∀ (zs : List DangerZone) (st : DetectionState),
      SessionInv base st →
      SessionInv base (evaluate dist uid uname loc zs st).1
  | [], _, h => h
  | z :: zs, st, h =>
    evaluate_inv dist uid uname loc base zs _
      (checkZone_inv dist uid uname loc st z base h)

/-- Every state of a session run preserves the session invariant. -/
theorem runCalls_inv (base : List AdminAlert) :
    ∀ (calls : List HookCall) (st : DetectionState),
      SessionInv base st → SessionInv base (runCalls calls st)
  | [], _, h => h
  | c :: cs, st, h =>
    runCalls_inv base cs _
      (evaluate_inv c.dist c.userId c.username c.loc base c.zones st h)

/-- The initial session state satisfies the session invariant. -/
theorem initialState_inv (base : List AdminAlert) :
    SessionInv base (initialState base) := by
  intro k
  simp [SessionInv, countAlerts, initialState]

end SafeHaven


/-! ## Lemmas about the consolidated monitor and the contract bookkeeping -/

namespace SafeHaven

/-- When every zone is previously unentered and contains the sample, the
per-zone fold of the consolidated monitor enters each zone in input order,
landing in the table extended by all the pairs. -/
theorem specStep_all_enter (dist : Dist) (sid : String)
    (pos : UserLocation) :
    ∀ (zones : List DangerZone) (tbl : MembershipTable),
      (zones.map DangerZone.id).Nodup →
      (∀ z ∈ zones,
        (sid, z.id) ∉ tbl ∧ dist pos (z.lat, z.lng) ≤ z.radius) →
      (specStep dist sid pos zones tbl).2 =
        zones.map Transition.entered
  | [], _, _, _ => rfl
  | z :: zs, tbl, hnd, hall => by
    rw [List.map_cons, List.nodup_cons] at hnd
    have hz := hall z (List.mem_cons_self z zs)
    have hIn : isInZone (dist pos (z.lat, z.lng)) z.radius = true :=
      (isInZone_true_iff _ _).2 hz.2
    have hPrior : decide ((sid, z.id) ∈ tbl) = false := decide_eq_false hz.1
    have hall2 : ∀ z' ∈ zs,
        (sid, z'.id) ∉ insert (sid, z.id) tbl ∧
          dist pos (z'.lat, z'.lng) ≤ z'.radius := by
      intro w hw
      refine ⟨?_, (hall w (List.mem_cons_of_mem z hw)).2⟩
      intro hmem
      rcases Finset.mem_insert.1 hmem with he | he
      · have hid : w.id = z.id := by simpa using congrArg Prod.snd he
        exact hnd.1 (hid ▸ List.mem_map_of_mem DangerZone.id hw)
      · exact (hall w (List.mem_cons_of_mem z hw)).1 he
    have ih := specStep_all_enter dist sid pos zs
      (insert (sid, z.id) tbl) hnd.2 hall2
    simp [specStep, hIn, hPrior, ih]

/-- First entered zone of a transition list headed by an entry. -/
theorem firstEntered_entered_cons (z : DangerZone) (l : List Transition) :
    firstEntered (Transition.entered z :: l) = some z := rfl

/-- The consolidated monitor never attaches an alert when the prior status
is not the baseline safe category. -/
theorem specEvaluate_alert_not_safe (dist : Dist) (sid : String)
    (pos : UserLocation) (ts : ℕ) (zones : List DangerZone)
    (status : SafetyStatus) (tbl : MembershipTable)
    (hst : status ≠ SafetyStatus.safe) :
    ∀ r, specEvaluate dist sid pos ts zones status tbl = Except.ok r →
      r.2.2 = none := by
  intro r h
  by_cases hv : validPosition pos
  · simp only [specEvaluate, if_pos hv, if_neg hst] at h
    injection h with h'
    rw [← h']
  · simp [specEvaluate, hv] at h

/-- The number of true values of a predicate drops by one when an element
satisfying it is overwritten by one that does not. -/
theorem countP_set_toggle (p : EmergencyAlert → Bool) :
    ∀ (l : List EmergencyAlert) (i : ℕ) (b : EmergencyAlert)
      (h : i < l.length),
      p (l.get ⟨i, h⟩) = true → p b = false →
      (l.set i b).countP p + 1 = l.countP p
  | [], i, _, h, _, _ => absurd h (Nat.not_lt_zero i)
  | x :: xs, 0, b, _, hx, hb => by
    simp only [List.set, List.countP_cons]
    simp only [List.get] at hx
    rw [hx, hb]
    simp
  | x :: xs, i + 1, b, h, hx, hb => by
    simp only [List.set, List.countP_cons]
    have ih := countP_set_toggle p xs i b (Nat.lt_of_succ_lt_succ h)
      (by simpa [List.get] using hx) hb
    omega

/-- Unpacking a successful `dismissAlert`: the index is valid, the alert at
it was not yet dismissed, and the state change is exactly marking it
dismissed and decrementing the counter. -/
theorem dismissAlert_spec {st : AlertsState} {idx : ℕ} {st' : AlertsState}
    (h : dismissAlert st idx = some st') :
    ∃ hlt : idx < st.alerts.length,
      (st.alerts.get ⟨idx, hlt⟩).isDismissed = false ∧
      st' = ⟨st.alerts.set idx
          ⟨(st.alerts.get ⟨idx, hlt⟩).alertId,
            (st.alerts.get ⟨idx, hlt⟩).zoneName, true⟩,
        st.alertCount - 1, st.alertCounter⟩ := by
  unfold dismissAlert at h
  split_ifs at h with h1
  dsimp only at h
  split_ifs at h with h2
  exact ⟨h1, by simpa using h2, (Option.some.inj h).symm⟩

/-- The contract invariant: `alertCount` equals the number of non-dismissed
alerts in storage, in every reachable state. -/
theorem alertCount_eq_countP (st : AlertsState) (h : AlertsReachable st) :
    st.alertCount = st.alerts.countP (fun a => !a.isDismissed) := by
  induction h with
  | init => rfl
  | create st0 zn _ ih =>
    simp [createEmergencyAlert, List.countP_append, ih]
  | dismiss st0 idx st' _ heq ih =>
    obtain ⟨hlt, hnd, rfl⟩ := dismissAlert_spec heq
    have hc := countP_set_toggle (fun a => !a.isDismissed) st0.alerts idx
      ⟨(st0.alerts.get ⟨idx, hlt⟩).alertId,
        (st0.alerts.get ⟨idx, hlt⟩).zoneName, true⟩ hlt
      (by simpa using hnd) rfl
    show st0.alertCount - 1 = List.countP (fun a => !a.isDismissed)
      (st0.alerts.set idx
        ⟨(st0.alerts.get ⟨idx, hlt⟩).alertId,
          (st0.alerts.get ⟨idx, hlt⟩).zoneName, true⟩)
    omega

end SafeHaven

/-! ## Claim theorems -/

/-- C1: after every hook evaluation over a zone snapshot with distinct zone
ids, the stored membership state for a (subject, zone) pair — presence of
the pair's key in the notified set — is true exactly when the evaluated
sample lies within the zone's radius under the distance function; and a
per-zone evaluation whose containment matches the stored state performs no
state mutation and emits nothing. -/
theorem SafeHaven.membershipState_invariant (dist : Dist)
    (uid uname : String) (loc : UserLocation) (zones : List DangerZone)
    (st : DetectionState) (hids : (zones.map DangerZone.id).Nodup) :
    (∀ z ∈ zones,
      (zoneKey uid z ∈
          (evaluate dist uid uname loc zones st).1.notifiedZones ↔
        dist loc (z.lat, z.lng) ≤ z.radius)) ∧
    (∀ (st' : DetectionState) (z : DangerZone),
      (zoneKey uid z ∈ st'.notifiedZones ↔
        dist loc (z.lat, z.lng) ≤ z.radius) →
      checkZone dist uid uname loc st' z = (st', [])) :=
  ⟨evaluate_mem dist uid uname loc zones st hids,
    fun st' z h => checkZone_noop dist uid uname loc st' z h⟩

/-- Witness for C1 at a concrete call: one zone of radius 1000 at constant
distance 5, evaluated from the empty session state. -/
theorem SafeHaven.membershipState_invariant_witness :
    (∀ z ∈ [(⟨"Z1", "Z", 10, 20, 1000, ZoneLevel.high⟩ : DangerZone)],
      (zoneKey "u" z ∈
          (evaluate (fun _ _ => 5) "u" "n" (0, 0)
            [⟨"Z1", "Z", 10, 20, 1000, ZoneLevel.high⟩]
            (initialState [])).1.notifiedZones ↔
        (fun _ _ => (5 : ℚ)) ((0 : ℚ), (0 : ℚ)) (z.lat, z.lng) ≤
          z.radius)) ∧
    (∀ (st' : DetectionState) (z : DangerZone),
      (zoneKey "u" z ∈ st'.notifiedZones ↔
        (fun _ _ => (5 : ℚ)) ((0 : ℚ), (0 : ℚ)) (z.lat, z.lng) ≤
          z.radius) →
      checkZone (fun _ _ => 5) "u" "n" (0, 0) st' z = (st', [])) :=
  membershipState_invariant (fun _ _ => 5) "u" "n" (0, 0)
    [⟨"Z1", "Z", 10, 20, 1000, ZoneLevel.high⟩] (initialState [])
    (by decide)

/-- C3: a position whose computed distance from the zone center equals the
radius exactly is classified inside: the containment check of the hook (and
backend) is the closed-disk predicate `distance ≤ radius`. -/
theorem SafeHaven.boundary_inclusive (d r : ℚ) (h : d = r) :
    isInZone d r = true :=
  (isInZone_true_iff d r).2 (le_of_eq h)

/-- Witness for C3 at distance and radius 1000. -/
theorem SafeHaven.boundary_inclusive_witness :
    isInZone 1000 1000 = true :=
  boundary_inclusive 1000 1000 rfl

/-- C4: evaluating the identical (subject, position, zones) twice in a row
with no intervening call leaves the state of the first call untouched and
returns an empty transition list (hence appends no alert) on the second
call, for any zone snapshot with distinct zone ids. -/
theorem SafeHaven.evaluate_idempotent (dist : Dist) (uid uname : String)
    (loc : UserLocation) (zones : List DangerZone) (st : DetectionState)
    (hids : (zones.map DangerZone.id).Nodup) :
    evaluate dist uid uname loc zones
        (evaluate dist uid uname loc zones st).1 =
      ((evaluate dist uid uname loc zones st).1, []) :=
  evaluate_noop dist uid uname loc zones _
    (evaluate_mem dist uid uname loc zones st hids)

/-- Witness for C4 at a concrete call entering one zone. -/
theorem SafeHaven.evaluate_idempotent_witness :
    evaluate (fun _ _ => 5) "u" "n" (0, 0)
        [⟨"Z1", "Z", 10, 20, 1000, ZoneLevel.high⟩]
        (evaluate (fun _ _ => 5) "u" "n" (0, 0)
          [⟨"Z1", "Z", 10, 20, 1000, ZoneLevel.high⟩]
          (initialState [])).1 =
      ((evaluate (fun _ _ => 5) "u" "n" (0, 0)
        [⟨"Z1", "Z", 10, 20, 1000, ZoneLevel.high⟩]
        (initialState [])).1, []) :=
  evaluate_idempotent (fun _ _ => 5) "u" "n" (0, 0)
    [⟨"Z1", "Z", 10, 20, 1000, ZoneLevel.high⟩] (initialState [])
    (by decide)

/-- C7: for a fixed zone, a stored-inside state evaluated at an outside
position emits exactly one Left; the immediately following evaluation at an
inside position emits exactly one Entered; and any evaluation whose
containment matches the stored state emits no transition for the zone. -/
theorem SafeHaven.transition_symmetry (dist : Dist) (uid uname : String)
    (locOut locIn : UserLocation) (z : DangerZone) (st : DetectionState)
    (hin0 : zoneKey uid z ∈ st.notifiedZones)
    (hout : ¬ dist locOut (z.lat, z.lng) ≤ z.radius)
    (hback : dist locIn (z.lat, z.lng) ≤ z.radius) :
    (evaluate dist uid uname locOut [z] st).2 = [Transition.left z] ∧
    (evaluate dist uid uname locIn [z]
        (evaluate dist uid uname locOut [z] st).1).2 =
      [Transition.entered z] ∧
    ∀ (loc : UserLocation) (st' : DetectionState),
      (zoneKey uid z ∈ st'.notifiedZones ↔
        dist loc (z.lat, z.lng) ≤ z.radius) →
      (evaluate dist uid uname loc [z] st').2 = [] := by
  have h1 := checkZone_left_eq dist uid uname locOut st z hin0 hout
  refine ⟨?_, ?_, ?_⟩
  · simp [evaluate, h1]
  · have hst1 : (evaluate dist uid uname locOut [z] st).1 =
        { st with
          notifiedZones := st.notifiedZones.erase (zoneKey uid z) } := by
      simp [evaluate, h1]
    rw [hst1]
    have h2 := checkZone_entered_parts dist uid uname locIn
      { st with notifiedZones := st.notifiedZones.erase (zoneKey uid z) } z
      (Finset.not_mem_erase _ _) hback
    simp [evaluate, h2.1]
  · intro loc st' h
    simp [evaluate, checkZone_noop dist uid uname loc st' z h]

/-- Witness for C7: distance is the sample's latitude, the radius is 10;
the stored-inside state leaves at latitude 20 and re-enters at latitude 5. -/
theorem SafeHaven.transition_symmetry_witness :
    (evaluate (fun p _ => p.1) "u" "n" (20, 0)
        [⟨"Z1", "Z", 10, 20, 10, ZoneLevel.low⟩]
        ⟨{"u-Z1"}, ∅, []⟩).2 =
      [Transition.left ⟨"Z1", "Z", 10, 20, 10, ZoneLevel.low⟩] ∧
    (evaluate (fun p _ => p.1) "u" "n" (5, 0)
        [⟨"Z1", "Z", 10, 20, 10, ZoneLevel.low⟩]
        (evaluate (fun p _ => p.1) "u" "n" (20, 0)
          [⟨"Z1", "Z", 10, 20, 10, ZoneLevel.low⟩]
          ⟨{"u-Z1"}, ∅, []⟩).1).2 =
      [Transition.entered ⟨"Z1", "Z", 10, 20, 10, ZoneLevel.low⟩] ∧
    ∀ (loc : UserLocation) (st' : DetectionState),
      (zoneKey "u" ⟨"Z1", "Z", 10, 20, 10, ZoneLevel.low⟩ ∈
          st'.notifiedZones ↔
        (fun (p : UserLocation) (_ : UserLocation) => p.1) loc
            (10, 20) ≤ 10) →
      (evaluate (fun p _ => p.1) "u" "n" loc
        [⟨"Z1", "Z", 10, 20, 10, ZoneLevel.low⟩] st').2 = [] :=
  transition_symmetry (fun p _ => p.1) "u" "n" (20, 0) (5, 0)
    ⟨"Z1", "Z", 10, 20, 10, ZoneLevel.low⟩ ⟨{"u-Z1"}, ∅, []⟩
    (by decide) (by decide) (by decide)

/-- C10: across any session (any sequence of hook calls starting from empty
dedup sets, without clearNotifications), at most one admin alert per zone
key is appended to the persisted alert list; and re-entering a zone whose
key is already admin-notified re-fires the entry toast and re-inserts the
key while leaving the admin set and the persisted alert list untouched. -/
theorem SafeHaven.admin_alert_once_per_session :
    (∀ (calls : List HookCall) (base : List AdminAlert) (k : String),
      countAlerts k (runCalls calls (initialState base)) ≤
        countAlerts k (initialState base) + 1) ∧
    (∀ (dist : Dist) (uid uname : String) (loc : UserLocation)
      (st : DetectionState) (z : DangerZone),
      zoneKey uid z ∉ st.notifiedZones →
      zoneKey uid z ∈ st.adminNotified →
      dist loc (z.lat, z.lng) ≤ z.radius →
      checkZone dist uid uname loc st z =
        ({ st with
            notifiedZones := insert (zoneKey uid z) st.notifiedZones },
          [Transition.entered z])) := by
  constructor
  · intro calls base k
    have h := runCalls_inv base calls (initialState base)
      (initialState_inv base) k
    have hb : countAlerts k (initialState base) =
        (base.filter (fun a => a.key = k)).length := by
      simp [countAlerts, initialState]
    rw [hb]
    by_cases hm :
        k ∈ (runCalls calls (initialState base)).adminNotified
    · rw [if_pos hm] at h
      exact h
    · rw [if_neg hm] at h
      omega
  · exact fun dist uid uname loc st z h1 h2 h3 =>
      checkZone_reenter dist uid uname loc st z h1 h2 h3

/-- Witness for C10: one call entering one zone from the empty session, and
a re-entry step on a state whose admin set already holds the key. -/
theorem SafeHaven.admin_alert_once_per_session_witness :
    countAlerts "u-Z1"
        (runCalls
          [⟨fun _ _ => 5, "u", "n", (0, 0),
            [⟨"Z1", "Z", 10, 20, 1000, ZoneLevel.high⟩]⟩]
          (initialState [])) ≤
      countAlerts "u-Z1" (initialState []) + 1 ∧
    checkZone (fun _ _ => 5) "u" "n" (0, 0)
        ⟨∅, {"u-Z1"}, []⟩ ⟨"Z1", "Z", 10, 20, 1000, ZoneLevel.high⟩ =
      (⟨{"u-Z1"}, {"u-Z1"}, []⟩, 
        [Transition.entered ⟨"Z1", "Z", 10, 20, 1000, ZoneLevel.high⟩]) :=
  ⟨admin_alert_once_per_session.1
      [⟨fun _ _ => 5, "u", "n", (0, 0),
        [⟨"Z1", "Z", 10, 20, 1000, ZoneLevel.high⟩]⟩] [] "u-Z1",
    admin_alert_once_per_session.2 (fun _ _ => 5) "u" "n" (0, 0)
      ⟨∅, {"u-Z1"}, []⟩ ⟨"Z1", "Z", 10, 20, 1000, ZoneLevel.high⟩
      (by decide) (by decide) (by decide)⟩

/-- C5: a call of the consolidated monitor with baseline safe prior status
on a subject simultaneously inside several previously-unentered zones (with
distinct ids) returns one Entered transition per zone in input order and
exactly one alert, referencing the first entered zone in the caller's zone
order. -/
theorem SafeHaven.single_alert_per_call (dist : Dist) (sid : String)
    (pos : UserLocation) (ts : ℕ) (zones : List DangerZone)
    (tbl : MembershipTable) (hval : validPosition pos)
    (hids : (zones.map DangerZone.id).Nodup)
    (hall : ∀ z ∈ zones,
      (sid, z.id) ∉ tbl ∧ dist pos (z.lat, z.lng) ≤ z.radius)
    (hne : zones ≠ []) :
    specEvaluate dist sid pos ts zones SafetyStatus.safe tbl =
      Except.ok ((specStep dist sid pos zones tbl).1,
        zones.map Transition.entered,
        some ⟨zones.head hne, ts⟩) := by
  cases zones with
  | nil => exact absurd rfl hne
  | cons z zs =>
    have htr := specStep_all_enter dist sid pos (z :: zs) tbl hids hall
    simp [specEvaluate, hval, htr, firstEntered_entered_cons]

/-- Witness for C5: three previously-unentered zones entered in one call;
the single alert references the first zone, all three transitions return. -/
theorem SafeHaven.single_alert_per_call_witness :
    specEvaluate (fun _ _ => 5) "u" (10, 20) 7
        [⟨"Z1", "A", 10, 20, 1000, ZoneLevel.high⟩,
          ⟨"Z2", "B", 11, 21, 1000, ZoneLevel.low⟩,
          ⟨"Z3", "C", 12, 22, 1000, ZoneLevel.medium⟩]
        SafetyStatus.safe ∅ =
      Except.ok
        ((specStep (fun _ _ => 5) "u" (10, 20)
            [⟨"Z1", "A", 10, 20, 1000, ZoneLevel.high⟩,
              ⟨"Z2", "B", 11, 21, 1000, ZoneLevel.low⟩,
              ⟨"Z3", "C", 12, 22, 1000, ZoneLevel.medium⟩] ∅).1,
          [Transition.entered ⟨"Z1", "A", 10, 20, 1000, ZoneLevel.high⟩,
            Transition.entered ⟨"Z2", "B", 11, 21, 1000, ZoneLevel.low⟩,
            Transition.entered
              ⟨"Z3", "C", 12, 22, 1000, ZoneLevel.medium⟩],
          some ⟨⟨"Z1", "A", 10, 20, 1000, ZoneLevel.high⟩, 7⟩) :=
  single_alert_per_call (fun _ _ => 5) "u" (10, 20) 7
    [⟨"Z1", "A", 10, 20, 1000, ZoneLevel.high⟩,
      ⟨"Z2", "B", 11, 21, 1000, ZoneLevel.low⟩,
      ⟨"Z3", "C", 12, 22, 1000, ZoneLevel.medium⟩] ∅
    (by decide) (by decide) (by decide) (by decide)

/-- C6: a call of the consolidated monitor whose prior status is already
elevated still returns the Entered transitions for the zones it enters but
synthesizes no alert; and for any call, an alert is only ever attached when
the prior status is the baseline safe category. -/
theorem SafeHaven.no_realert_while_elevated (dist : Dist) (sid : String)
    (pos : UserLocation) (ts : ℕ) (zones : List DangerZone)
    (tbl : MembershipTable) (priorStatus : SafetyStatus)
    (hval : validPosition pos)
    (helev : priorStatus ≠ SafetyStatus.safe)
    (hids : (zones.map DangerZone.id).Nodup)
    (hall : ∀ z ∈ zones,
      (sid, z.id) ∉ tbl ∧ dist pos (z.lat, z.lng) ≤ z.radius) :
    specEvaluate dist sid pos ts zones priorStatus tbl =
      Except.ok ((specStep dist sid pos zones tbl).1,
        zones.map Transition.entered, none) ∧
    ∀ (status : SafetyStatus) (tbl0 : MembershipTable)
      (r : MembershipTable × List Transition × Option SpecAlert),
      status ≠ SafetyStatus.safe →
      specEvaluate dist sid pos ts zones status tbl0 = Except.ok r →
      r.2.2 = none := by
  constructor
  · have htr := specStep_all_enter dist sid pos zones tbl hids hall
    simp [specEvaluate, hval, htr, helev]
  · exact fun status tbl0 r hst h =>
      specEvaluate_alert_not_safe dist sid pos ts zones status tbl0 hst r h

/-- Witness for C6: entering one fresh zone with prior status alert returns
the Entered transition and no alert. -/
theorem SafeHaven.no_realert_while_elevated_witness :
    (specEvaluate (fun _ _ => 5) "u" (10, 20) 7
        [⟨"Z1", "A", 10, 20, 1000, ZoneLevel.high⟩]
        SafetyStatus.alert ∅ =
      Except.ok ((specStep (fun _ _ => 5) "u" (10, 20)
          [⟨"Z1", "A", 10, 20, 1000, ZoneLevel.high⟩] ∅).1,
        [Transition.entered ⟨"Z1", "A", 10, 20, 1000, ZoneLevel.high⟩],
        none)) ∧
    ∀ (status : SafetyStatus) (tbl0 : MembershipTable)
      (r : MembershipTable × List Transition × Option SpecAlert),
      status ≠ SafetyStatus.safe →
      specEvaluate (fun _ _ => 5) "u" (10, 20) 7
        [⟨"Z1", "A", 10, 20, 1000, ZoneLevel.high⟩] status tbl0 =
        Except.ok r →
      r.2.2 = none :=
  no_realert_while_elevated (fun _ _ => 5) "u" (10, 20) 7
    [⟨"Z1", "A", 10, 20, 1000, ZoneLevel.high⟩] ∅ SafetyStatus.alert
    (by decide) (by decide) (by decide) (by decide)

/-- C8: a call of the consolidated monitor whose position has latitude
outside [-90, 90] or longitude outside [-180, 180] fails with a validation
error; the error is raised before the membership table is consulted, so no
state, transition or alert is produced on this path. -/
theorem SafeHaven.validation_fails_closed (dist : Dist) (sid : String)
    (pos : UserLocation) (ts : ℕ) (zones : List DangerZone)
    (status : SafetyStatus) (tbl : MembershipTable)
    (hbad : pos.1 < -90 ∨ 90 < pos.1 ∨ pos.2 < -180 ∨ 180 < pos.2) :
    specEvaluate dist sid pos ts zones status tbl =
      Except.error GeoError.validationError := by
  have hv : ¬ validPosition pos := by
    intro hvp
    obtain ⟨⟨ha, hb⟩, hc, hd⟩ := hvp
    rcases hbad with h | h | h | h <;> linarith
  unfold specEvaluate
  rw [if_neg hv]

/-- Witness for C8 at latitude 91. -/
theorem SafeHaven.validation_fails_closed_witness :
    specEvaluate (fun _ _ => 5) "u" (91, 0) 0
        [⟨"Z1", "A", 10, 20, 1000, ZoneLevel.high⟩] SafetyStatus.safe ∅ =
      Except.error GeoError.validationError :=
  validation_fails_closed (fun _ _ => 5) "u" (91, 0) 0
    [⟨"Z1", "A", 10, 20, 1000, ZoneLevel.high⟩] SafetyStatus.safe ∅
    (Or.inr (Or.inl (by norm_num)))

/-- C9: in every reachable state of the TouristSafety alert subsystem,
`alertCount` equals the number of non-dismissed alerts in storage, and
`getActiveAlerts` returns exactly the non-dismissed alerts in order with no
empty slots. -/
theorem SafeHaven.alertCount_matches_active (st : AlertsState)
    (h : AlertsReachable st) :
    st.alertCount = (activeAlerts st).length ∧
    getActiveAlerts st = some (activeAlerts st) := by
  have hinv := alertCount_eq_countP st h
  have hlen : (activeAlerts st).length =
      st.alerts.countP (fun a => !a.isDismissed) := by
    simp [activeAlerts, List.countP_eq_length_filter]
  constructor
  · rw [hlen]
    exact hinv
  · simp only [getActiveAlerts]
    rw [if_pos (le_of_eq (hlen.trans hinv.symm))]
    have h0 : st.alertCount - (activeAlerts st).length = 0 := by omega
    rw [h0]
    simp

/-- Witness for C9 at the state reached by creating one alert. -/
theorem SafeHaven.alertCount_matches_active_witness :
    (createEmergencyAlert ⟨[], 0, 0⟩ "Z1").alertCount =
        (activeAlerts (createEmergencyAlert ⟨[], 0, 0⟩ "Z1")).length ∧
      getActiveAlerts (createEmergencyAlert ⟨[], 0, 0⟩ "Z1") =
        some (activeAlerts (createEmergencyAlert ⟨[], 0, 0⟩ "Z1")) :=
  alertCount_matches_active _
    (AlertsReachable.create _ "Z1" AlertsReachable.init)
